import Mathlib

/-!
Verification development for the plant-care chat bot (`src/main.py`).

The embedding models the data layer and the handlers the claims are about:
JSON values (Python dicts are association lists with Python's update
semantics), the document store adapter (`load_data`), the AI task
generation inside `add_plant`, the repository-style mutations performed by
the handlers (`handle_task_callback` toggling, `handle_management_callback`
deletions, `edit_plant_value`, `edit_task_value`, `add_task_interval`),
and the per-user conversation scratch state (`context.user_data`).

Machine-level caveats, noted where relevant:
* `str.lower` is modelled on ASCII (`Char.toLower`); the claims' inputs are
  ASCII.
* Python `int(...)` is modelled for ASCII digit strings with an optional
  sign and single underscores between digits (Python's actual grammar for
  decimal literals); unicode digits are outside the modelled scope.
* JSON numerals are modelled as integers; documents containing float
  numerals are outside the modelled scope (no claim depends on them).
-/

/-- A JSON value, as produced by Python's `json.loads`. -/
inductive Json where
  | null
  | bool (b : Bool)
  | num (n : Int)
  | str (s : String)
  | arr (xs : List Json)
  | obj (kvs : List (String × Json))
deriving Repr

/-- A Python dict with string keys and JSON values (one task record). -/
def PyDict : Type := List (String × Json)

/-- `d[k]` lookup returning `none` when the key is absent. -/
def dget (kvs : PyDict) (k : String) : Option Json :=
  match kvs with
  | [] => none
  | (k', v) :: rest => if k' = k then some v else dget rest k

/-- `d.get(k, dflt)`. -/
def dgetD (kvs : PyDict) (k : String) (dflt : Json) : Json :=
  (dget kvs k).getD dflt

/-- `k in d`. -/
def dhasKey (kvs : PyDict) (k : String) : Bool :=
  (dget kvs k).isSome

/-- `d[k] = v`: updates the value in place when the key exists (keeping its
position), otherwise appends the new key at the end — Python dict insertion
order semantics. -/
def dset (kvs : PyDict) (k : String) (v : Json) : PyDict :=
  match kvs with
  | [] => [(k, v)]
  | (k', v') :: rest => if k' = k then (k, v) :: rest else (k', v') :: dset rest k v

/-- ASCII model of Python `str.lower()`. -/
def pyLower (s : String) : String :=
  String.mk (s.data.map Char.toLower)

/-- Python `str.strip()`: remove whitespace from both ends. -/
def pyStrip (s : String) : String :=
  String.mk (((s.data.dropWhile Char.isWhitespace).reverse.dropWhile Char.isWhitespace).reverse)

/-- Numeric value of a digit/underscore group (underscores are separators). -/
def digitsVal (cs : List Char) : Nat :=
  cs.foldl (fun acc c => if c = '_' then acc else acc * 10 + (c.toNat - '0'.toNat)) 0

/-- Whether two consecutive underscores occur. -/
def hasDoubleUnderscore : List Char → Bool
  | '_' :: '_' :: _ => true
  | _ :: rest => hasDoubleUnderscore rest
  | [] => false

/-- Whether `cs` is a valid Python decimal digit group: nonempty, made of
digits and underscores, starting and ending with a digit, with no two
consecutive underscores (every underscore sits between digits). -/
def validDigitGroup (cs : List Char) : Bool :=
  match cs with
  | [] => false
  | c :: _ =>
    c.isDigit &&
    cs.all (fun c => c.isDigit || c = '_') &&
    (cs.getLast?.elim false Char.isDigit) &&
    !hasDoubleUnderscore cs

/-- Model of Python `int(s)` on an already stripped string: optional sign
followed by a decimal digit group. -/
def pyIntCore (cs : List Char) : Option Int :=
  match cs with
  | '+' :: rest => if validDigitGroup rest then some (Int.ofNat (digitsVal rest)) else none
  | '-' :: rest => if validDigitGroup rest then some (-(Int.ofNat (digitsVal rest))) else none
  | rest => if validDigitGroup rest then some (Int.ofNat (digitsVal rest)) else none

/-- Model of Python `int(s)` (which strips whitespace itself). -/
def pyInt (s : String) : Option Int :=
  pyIntCore (pyStrip s).data

/-- The interval-parsing idiom shared by `add_task_interval` and
`edit_task_value`: `int(text)`, then raise (caught) when the value is not
positive.  `none` is the caught-`ValueError` outcome. -/
def pyPosInt (s : String) : Option Int :=
  match pyInt s with
  | some n => if n ≤ 0 then none else some n
  | none => none

/-- Python truthiness of a JSON value (`not x` negates this). -/
def pyTruthy : Json → Bool
  | Json.null => false
  | Json.bool b => b
  | Json.num n => n ≠ 0
  | Json.str s => s ≠ ""
  | Json.arr xs => !xs.isEmpty
  | Json.obj kvs => !kvs.isEmpty

/-- Index of the first occurrence of `c` (Python `str.find`, `none` = -1). -/
def firstIdxOf (cs : List Char) (c : Char) : Option Nat :=
  match cs with
  | [] => none
  | c' :: rest =>
    if c' = c then some 0 else (firstIdxOf rest c).map Nat.succ

/-- Index of the last occurrence of `c` (Python `str.rfind`, `none` = -1). -/
def lastIdxOf (cs : List Char) (c : Char) : Option Nat :=
  match cs with
  | [] => none
  | c' :: rest =>
    match lastIdxOf rest c with
    | some i => some (i + 1)
    | none => if c' = c then some 0 else none

/-- The bracket-extraction step of `add_plant`:
`start_idx = content.find("["); end_idx = content.rfind("]") + 1`;
when `start_idx != -1 and end_idx != 0`, the slice
`content[start_idx:end_idx]`; otherwise the raised `ValueError`
("No JSON array found in response"), modelled as `none`. -/
def extractBracket (content : String) : Option String :=
  match firstIdxOf content.data '[', lastIdxOf content.data ']' with
  | some s, some e => some (String.mk ((content.data.drop s).take (e + 1 - s)))
  | _, _ => none

/-- Skip whitespace. -/
def skipWs (cs : List Char) : List Char :=
  cs.dropWhile Char.isWhitespace

/-- The two brace characters, named to keep them out of literals. -/
def lbrace : Char := Char.ofNat 123

/-- Closing brace character. -/
def rbrace : Char := Char.ofNat 125

/-- Parse the body of a JSON string literal after the opening quote,
handling the common escapes. -/
def parseStringBody : List Char → List Char → Option (String × List Char)
  | [], _ => none
  | '"' :: rest, acc => some (String.mk acc.reverse, rest)
  | '\\' :: e :: rest, acc =>
    if e = '"' then parseStringBody rest ('"' :: acc)
    else if e = '\\' then parseStringBody rest ('\\' :: acc)
    else if e = '/' then parseStringBody rest ('/' :: acc)
    else if e = 'n' then parseStringBody rest ('\n' :: acc)
    else if e = 't' then parseStringBody rest ('\t' :: acc)
    else if e = 'r' then parseStringBody rest ('\x0d' :: acc)
    else none
  | c :: rest, acc => parseStringBody rest (c :: acc)

/-- Parse an integer JSON numeral (float numerals are outside the modelled
scope and fail). -/
def parseNum (cs : List Char) : Option (Json × List Char) :=
  let sign := match cs with
    | '-' :: _ => true
    | _ => false
  let cs' := if sign then cs.drop 1 else cs
  let ds := cs'.takeWhile Char.isDigit
  let rest := cs'.dropWhile Char.isDigit
  if ds.isEmpty then none
  else
    match rest with
    | '.' :: _ => none
    | 'e' :: _ => none
    | 'E' :: _ => none
    | _ =>
      let n : Int := Int.ofNat (digitsVal ds)
      some (Json.num (if sign then -n else n), rest)

mutual

/-- Fuel-indexed recursive-descent model of `json.loads` on one value. -/
def parseVal : Nat → List Char → Option (Json × List Char)
  | 0, _ => none
  | fuel + 1, cs =>
    match skipWs cs with
    | [] => none
    | c :: rest =>
      if c = '[' then
        match skipWs rest with
        | c' :: rest' =>
          if c' = ']' then some (Json.arr [], rest')
          else
            match parseElems fuel rest with
            | some (xs, rest'') => some (Json.arr xs, rest'')
            | none => none
        | [] => none
      else if c = lbrace then
        match skipWs rest with
        | c' :: rest' =>
          if c' = rbrace then some (Json.obj [], rest')
          else
            match parseMembers fuel rest with
            | some (kvs, rest'') =>
              some (Json.obj (kvs.foldl (fun acc kv => dset acc kv.1 kv.2) []), rest'')
            | none => none
        | [] => none
      else if c = '"' then
        match parseStringBody rest [] with
        | some (s, rest') => some (Json.str s, rest')
        | none => none
      else if List.isPrefixOf ['n', 'u', 'l', 'l'] (c :: rest) then
        some (Json.null, (c :: rest).drop 4)
      else if List.isPrefixOf ['t', 'r', 'u', 'e'] (c :: rest) then
        some (Json.bool true, (c :: rest).drop 4)
      else if List.isPrefixOf ['f', 'a', 'l', 's', 'e'] (c :: rest) then
        some (Json.bool false, (c :: rest).drop 5)
      else parseNum (c :: rest)

/-- Array elements after the opening bracket (nonempty case). -/
def parseElems : Nat → List Char → Option (List Json × List Char)
  | 0, _ => none
  | fuel + 1, cs =>
    match parseVal fuel cs with
    | none => none
    | some (v, rest) =>
      match skipWs rest with
      | [] => none
      | c :: rest' =>
        if c = ',' then
          match parseElems fuel rest' with
          | some (vs, rest'') => some (v :: vs, rest'')
          | none => none
        else if c = ']' then some ([v], rest')
        else none

/-- Object members after the opening brace (nonempty case). -/
def parseMembers : Nat → List Char → Option (List (String × Json) × List Char)
  | 0, _ => none
  | fuel + 1, cs =>
    match skipWs cs with
    | [] => none
    | c :: rest =>
      if c = '"' then
        match parseStringBody rest [] with
        | none => none
        | some (k, rest1) =>
          match skipWs rest1 with
          | ':' :: rest2 =>
            match parseVal fuel rest2 with
            | none => none
            | some (v, rest3) =>
              match skipWs rest3 with
              | [] => none
              | c2 :: rest4 =>
                if c2 = ',' then
                  match parseMembers fuel rest4 with
                  | some (kvs, rest5) => some ((k, v) :: kvs, rest5)
                  | none => none
                else if c2 = rbrace then some ([(k, v)], rest4)
                else none
          | _ => none
      else none

end

/-- Model of Python `json.loads`: parse one value surrounded by optional
whitespace; duplicate object keys collapse with last-value-wins, as in
Python dicts. -/
def jsonLoads (s : String) : Option Json :=
  match parseVal (2 * s.length + 4) s.data with
  | some (v, rest) => if (skipWs rest).isEmpty then some v else none
  | none => none

/-- The fixed fallback task list assigned by `add_plant` when generation
fails, in the dict-literal key order of the source. -/
def fallbackTasks : List PyDict :=
  [[("title", Json.str "Water"),
    ("description", Json.str "Check soil and water if needed"),
    ("interval_days", Json.num 3),
    ("done_today", Json.bool false),
    ("last_done", Json.null)],
   [("title", Json.str "Check leaves"),
    ("description", Json.str "Inspect for pests or disease"),
    ("interval_days", Json.num 7),
    ("done_today", Json.bool false),
    ("last_done", Json.null)]]

/-- The per-task loop body of `add_plant`'s success path: unconditionally
set `done_today = False` and `last_done = None`, then fill `title`,
`description` and `interval_days` only when the key is missing. -/
def normalizeAiTask (t : PyDict) : PyDict :=
  let t1 := dset t "done_today" (Json.bool false)
  let t2 := dset t1 "last_done" Json.null
  let t3 := if dhasKey t2 "title" then t2 else dset t2 "title" (Json.str "Untitled AI Task")
  let t4 :=
    if dhasKey t3 "description" then t3
    else dset t3 "description" (Json.str "No description provided.")
  if dhasKey t4 "interval_days" then t4 else dset t4 "interval_days" (Json.num 7)

/-- The parsed array's elements must all be objects: `ai_task["done_today"]
= False` on a non-dict raises `TypeError`, which the surrounding `except`
turns into the fallback. -/
def allObjs : List Json → Option (List PyDict)
  | [] => some []
  | Json.obj kvs :: rest => (allObjs rest).map (fun l => kvs :: l)
  | _ => none

/-- Outcome of the `requests.post` call in `add_plant`, at the boundary the
claims reference: `exn` covers any raised exception (network error,
timeout, or a malformed envelope when evaluating
`response.json()["choices"][0]["message"]["content"]`), `resp` carries the
HTTP status code and the extracted message content. -/
inductive ApiResult where
  | exn
  | resp (status : Nat) (content : String)

/-- The task-generation block of `add_plant` (the value `plant["tasks"]`
ends up with): status check, bracket extraction, `json.loads`, per-task
normalization, with the fixed fallback on any raised exception. -/
def generateTasks : ApiResult → List PyDict
  | ApiResult.exn => fallbackTasks
  | ApiResult.resp status content =>
    if status = 200 then
      match extractBracket content with
      | none => fallbackTasks
      | some sub =>
        match jsonLoads sub with
        | none => fallbackTasks
        | some (Json.arr ts) =>
          match allObjs ts with
          | some objs => objs.map normalizeAiTask
          | none => fallbackTasks
        | some _ => fallbackTasks
    else fallbackTasks

/-- A plant record, in the data-model shape `add_plant` creates; tasks stay
Python dicts because the handlers read them with `.get` defaults. -/
structure Plant where
  name : String
  age : String
  added : String
  tasks : List PyDict

/-- The persisted document: user id to the user's plant list (the
`{"plants": [...]}` wrapper collapsed, since every access path is
`data[uid]["plants"]`). -/
def Document : Type := List (String × List Plant)

/-- `data.get(uid)` on the document. -/
def docGet (d : Document) (uid : String) : Option (List Plant) :=
  match d with
  | [] => none
  | (u, ps) :: rest => if u = uid then some ps else docGet rest uid

/-- `data[uid] = ...` with Python dict insertion-order semantics. -/
def docSet (d : Document) (uid : String) (ps : List Plant) : Document :=
  match d with
  | [] => [(uid, ps)]
  | (u, ps') :: rest => if u = uid then (uid, ps) :: rest else (u, ps') :: docSet rest uid ps

/-- `data.get(uid, {}).get("plants", [])`. -/
def docPlants (d : Document) (uid : String) : List Plant :=
  (docGet d uid).getD []

/-- The lowered name of each plant, in list order. -/
def lowerNames (plants : List Plant) : List String :=
  plants.map (fun p => pyLower p.name)

/-- Whether a list of strings has no repeats. -/
def distinctB : List String → Bool
  | [] => true
  | s :: rest => (!rest.contains s) && distinctB rest

/-- Case-insensitive uniqueness of plant names within one user's list. -/
def namesUnique (plants : List Plant) : Bool :=
  distinctB (lowerNames plants)

/-- `add_plant` after argument parsing: ensure the user record exists,
early-return on a case-insensitive duplicate name (nothing appended, no
save — modelled `none`), else append the new plant (with `added` the
current timestamp and `tasks` from the generation block) and save. -/
def addPlant (d : Document) (uid name age now : String) (r : ApiResult) :
    Option Document :=
  let d1 := if (docGet d uid).isSome then d else docSet d uid []
  let plants := docPlants d1 uid
  if plants.any (fun p => pyLower p.name == pyLower name) then none
  else some (docSet d1 uid (plants ++ [⟨name, age, now, generateTasks r⟩]))

/-- The `task_<i>_<j>` branch of `handle_task_callback`: explicit bounds
check (else the "Task not found" reply, no save — modelled `none`);
in range, flip `done_today` (Python `not` on the `.get` default) and stamp
`last_done` with today's date only when the new value is true. -/
def toggleTask (d : Document) (uid : String) (pi ti : Nat) (today : String) :
    Option Document :=
  let plants := docPlants d uid
  match plants[pi]? with
  | none => none
  | some plant =>
    match plant.tasks[ti]? with
    | none => none
    | some task =>
      let newDone := !(pyTruthy (dgetD task "done_today" (Json.bool false)))
      let task1 := dset task "done_today" (Json.bool newDone)
      let task2 := if newDone then dset task1 "last_done" (Json.str today) else task1
      some (docSet d uid (plants.set pi { plant with tasks := plant.tasks.set ti task2 }))

/-- Python `del xs[i]` for an in-range index. -/
def pyDel (xs : List α) (i : Nat) : List α := xs.take i ++ xs.drop (i + 1)

/-- The `confirm_delete_plant_<i>` branch of `handle_management_callback`:
`plants[plant_idx]["name"]` then `del plants[plant_idx]` and save.  There
is no bounds check: an out-of-range index raises an uncaught `IndexError`
at the name lookup, so nothing is deleted and no save runs — modelled
`none`. -/
def deletePlant (d : Document) (uid : String) (pi : Nat) : Option Document :=
  let plants := docPlants d uid
  if pi < plants.length then some (docSet d uid (pyDel plants pi)) else none

/-- The `confirm_delete_task_<i>_<j>` branch: title lookup then
`del plants[plant_idx]["tasks"][task_idx]` and save; out-of-range indices
raise an uncaught `IndexError` (no deletion, no save — modelled `none`). -/
def deleteTask (d : Document) (uid : String) (pi ti : Nat) : Option Document :=
  let plants := docPlants d uid
  match plants[pi]? with
  | none => none
  | some plant =>
    if ti < plant.tasks.length then
      some (docSet d uid (plants.set pi { plant with tasks := pyDel plant.tasks ti }))
    else none

/-- The per-user `context.user_data` scratch mapping; `none` = key absent.
These six keys are the only ones any handler writes. -/
structure Scratch where
  selected_plant_idx : Option Nat
  edit_plant_idx : Option Nat
  edit_task_plant_idx : Option Nat
  edit_task_idx : Option Nat
  edit_field : Option String
  new_task : Option PyDict

/-- The empty scratch mapping. -/
def emptyScratch : Scratch :=
  ⟨none, none, none, none, none, none⟩

/-- How a conversation-flow handler returns: `retry` re-enters the same
state after an error reply; `ended` is `ConversationHandler.END` after an
error message; `completed` is END after the terminal action; `exn` is an
uncaught exception (missing scratch key). -/
inductive FlowOutcome where
  | retry
  | ended
  | completed
  | exn

/-- `add_task_interval`, the terminal step of the add-task flow: parse the
interval (invalid: error reply and stay, nothing touched); read the plant
index with `user_data.get("selected_plant_idx", 0)`; when the index is out
of range reply "Plant not found" and END *without clearing the scratch*;
otherwise finish the draft task, append it to the plant, save, and pop
exactly `new_task` and `selected_plant_idx`. -/
def addTaskInterval (sc : Scratch) (d : Document) (uid text : String) :
    FlowOutcome × Scratch × Document :=
  match pyPosInt text with
  | none => (FlowOutcome.retry, sc, d)
  | some n =>
    let pi := sc.selected_plant_idx.getD 0
    let plants := docPlants d uid
    match plants[pi]? with
    | none => (FlowOutcome.ended, sc, d)
    | some plant =>
      match sc.new_task with
      | none => (FlowOutcome.exn, sc, d)
      | some draft =>
        let task :=
          dset (dset (dset draft "interval_days" (Json.num n))
            "done_today" (Json.bool false)) "last_done" Json.null
        let d' := docSet d uid (plants.set pi { plant with tasks := plant.tasks ++ [task] })
        let sc' := { sc with new_task := none, selected_plant_idx := none }
        (FlowOutcome.completed, sc', d')

/-- `cancel_conversation`: reply, `context.user_data.clear()`, END. -/
def cancelConversation (_sc : Scratch) : FlowOutcome × Scratch :=
  (FlowOutcome.completed, emptyScratch)

/-- Read a plant attribute named by the `edit_field` string; the edit-plant
flow only ever stores "name" or "age" there (`handle_edit_selection`). -/
def plantGetField (p : Plant) (field : String) : Option String :=
  if field = "name" then some p.name
  else if field = "age" then some p.age
  else none

/-- Write a plant attribute named by the `edit_field` string. -/
def plantSetField (p : Plant) (field : String) (v : String) : Plant :=
  if field = "name" then { p with name := v }
  else if field = "age" then { p with age := v }
  else p

/-- Result of a value-step edit handler: `updated` carries the old value
(for the confirmation reply) and the saved document. -/
inductive EditResult where
  | retry
  | updated (old : Json) (d' : Document)
  | notFound
  | exn

/-- `edit_plant_value`: read `edit_plant_idx` and `edit_field` from scratch
(missing key: uncaught `KeyError`, scratch untouched); in range, overwrite
the field with the stripped text, save, reply with the old value; out of
range, "Plant not found".  Both reachable exits run
`context.user_data.clear()`.  No duplicate-name check is performed when the
field is `name`. -/
def editPlantValue (sc : Scratch) (d : Document) (uid text : String) :
    EditResult × Scratch :=
  match sc.edit_plant_idx, sc.edit_field with
  | some pi, some field =>
    let v := pyStrip text
    let plants := docPlants d uid
    match plants[pi]? with
    | some plant =>
      match plantGetField plant field with
      | some old =>
        (EditResult.updated (Json.str old)
          (docSet d uid (plants.set pi (plantSetField plant field v))), emptyScratch)
      | none => (EditResult.exn, sc)
    | none => (EditResult.notFound, emptyScratch)
  | _, _ => (EditResult.exn, sc)

/-- The shared tail of `edit_task_value` after validation: bounds check,
`old_value = task.get(field, "None")`, `task[field] = new_value`, save;
both reachable exits clear the scratch. -/
def editTaskCommit (d : Document) (uid : String) (pi ti : Nat)
    (field : String) (v : Json) : EditResult × Scratch :=
  let plants := docPlants d uid
  match plants[pi]? with
  | some plant =>
    match plant.tasks[ti]? with
    | some task =>
      let old := dgetD task field (Json.str "None")
      let d' :=
        docSet d uid (plants.set pi { plant with tasks := plant.tasks.set ti (dset task field v) })
      (EditResult.updated old d', emptyScratch)
    | none => (EditResult.notFound, emptyScratch)
  | none => (EditResult.notFound, emptyScratch)

/-- `edit_task_value`: read the two indices and the field from scratch
(missing key: uncaught `KeyError`); when the field is `interval_days` the
text must parse as a positive integer, else error reply and re-enter the
same state with the scratch kept; then commit as in `editTaskCommit`. -/
def editTaskValue (sc : Scratch) (d : Document) (uid text : String) :
    EditResult × Scratch :=
  match sc.edit_task_plant_idx, sc.edit_task_idx, sc.edit_field with
  | some pi, some ti, some field =>
    if field = "interval_days" then
      match pyPosInt text with
      | none => (EditResult.retry, sc)
      | some n => editTaskCommit d uid pi ti field (Json.num n)
    else editTaskCommit d uid pi ti field (Json.str (pyStrip text))
  | _, _, _ => (EditResult.exn, sc)

/-- Behaviour of the GCS boundary as `load_data` sees it: the bucket name
may be unset (`get_gcs_blob` returns `None`), the blob download may raise
(absent object, any retrieval error — caught by `load_data`), or it yields
the stored text. -/
inductive StoreBehavior where
  | noBucket
  | downloadRaises
  | content (s : String)

/-- `load_data`: `{}` when the blob is unavailable, when the download
raises, or when `json.loads` raises; otherwise whatever JSON value the
stored text parses to. -/
def loadData : StoreBehavior → Json
  | StoreBehavior.noBucket => Json.obj []
  | StoreBehavior.downloadRaises => Json.obj []
  | StoreBehavior.content s =>
    match jsonLoads s with
    | some v => v
    | none => Json.obj []

/-- Whether a JSON value is a mapping (a valid `Document` root). -/
def isMapping : Json → Bool
  | Json.obj _ => true
  | _ => false

/-- Whether a task record's `interval_days` is a positive integer. -/
def intervalPos (t : PyDict) : Bool :=
  match dget t "interval_days" with
  | some (Json.num n) => decide (0 < n)
  | _ => false

/-- The done flag of task `(pi, ti)` as the program reads it:
`task.get("done_today", False)` through Python truthiness (on
schema-conforming documents, where the stored value is a boolean or
absent, this is the literal value). -/
def doneOf (d : Document) (uid : String) (pi ti : Nat) : Option Bool :=
  ((docPlants d uid)[pi]?).bind (fun p => (p.tasks[ti]?).map
    (fun t => pyTruthy (dgetD t "done_today" (Json.bool false))))

/-- The `last_done` entry of task `(pi, ti)` (`none` = invalid indices,
`some none` = key absent). -/
def lastDoneOf (d : Document) (uid : String) (pi ti : Nat) : Option (Option Json) :=
  ((docPlants d uid)[pi]?).bind (fun p => (p.tasks[ti]?).map (fun t => dget t "last_done"))

/-- The single task record written back by a toggle of `task`. -/
def toggledTask (task : PyDict) (today : String) : PyDict :=
  let newDone := !(pyTruthy (dgetD task "done_today" (Json.bool false)))
  let task1 := dset task "done_today" (Json.bool newDone)
  if newDone then dset task1 "last_done" (Json.str today) else task1


/-! ### Helper lemmas about the dict and list models -/

theorem dget_dset_self (t : PyDict) (k : String) (v : Json) :
    dget (dset t k v) k = some v := by
  induction t with
  | nil => simp [dget, dset]
  | cons kv rest ih =>
    obtain ⟨k', v'⟩ := kv
    by_cases h : k' = k
    · simp [dget, dset, h]
    · simp [dget, dset, h, ih]

theorem dget_dset_ne (t : PyDict) (k k' : String) (v : Json) (h : k' ≠ k) :
    dget (dset t k v) k' = dget t k' := by
  induction t with
  | nil => simp [dget, dset, Ne.symm h]
  | cons kv rest ih =>
    obtain ⟨k0, v0⟩ := kv
    by_cases h0 : k0 = k
    · subst h0
      simp [dget, dset, Ne.symm h]
    · by_cases h1 : k0 = k'
      · simp [dget, dset, h0, h1, h]
      · simp [dget, dset, h0, h1, h, ih]

theorem dhasKey_dset_ne (t : PyDict) (k k' : String) (v : Json) (h : k' ≠ k) :
    dhasKey (dset t k v) k' = dhasKey t k' := by
  simp [dhasKey, dget_dset_ne t k k' v h]

theorem docGet_docSet_self (d : Document) (uid : String) (ps : List Plant) :
    docGet (docSet d uid ps) uid = some ps := by
  induction d with
  | nil => simp [docGet, docSet]
  | cons kv rest ih =>
    obtain ⟨u, ps'⟩ := kv
    by_cases h : u = uid
    · simp [docGet, docSet, h]
    · simp [docGet, docSet, h, ih]

theorem docPlants_docSet_self (d : Document) (uid : String) (ps : List Plant) :
    docPlants (docSet d uid ps) uid = ps := by
  simp [docPlants, docGet_docSet_self]

theorem docPlants_ensure (d : Document) (uid : String) :
    docPlants (if (docGet d uid).isSome then d else docSet d uid []) uid =
      docPlants d uid := by
  by_cases h : (docGet d uid).isSome
  · simp [h]
  · simp [h, docPlants_docSet_self]
    simp [docPlants, Option.not_isSome_iff_eq_none.mp h]

theorem set_of_getElem? (l : List α) (i : Nat) (a : α) (h : l[i]? = some a) :
    l.set i a = l := by
  induction l generalizing i with
  | nil => simp at h
  | cons x xs ih =>
    cases i with
    | zero => simp_all
    | succ n =>
      simp only [List.getElem?_cons_succ] at h
      simp [ih n h]

theorem pyDel_eq_eraseIdx (l : List α) (i : Nat) : pyDel l i = l.eraseIdx i := by
  rw [pyDel, List.eraseIdx_eq_take_drop_succ]

theorem pyDel_length (l : List α) (i : Nat) (h : i < l.length) :
    (pyDel l i).length = l.length - 1 := by
  rw [pyDel_eq_eraseIdx, List.length_eraseIdx]
  simp [h]

theorem pyDel_getElem?_lt (l : List α) (i j : Nat) (hi : i < l.length) (hj : j < i) :
    (pyDel l i)[j]? = l[j]? := by
  rw [pyDel, List.getElem?_append_left, List.getElem?_take, if_pos hj]
  simp [List.length_take]
  omega

theorem pyDel_getElem?_ge (l : List α) (i j : Nat) (hi : i < l.length) (hj : i < j) :
    (pyDel l i)[j - 1]? = l[j]? := by
  have hlen : (l.take i).length = i := List.length_take_of_le (Nat.le_of_lt hi)
  rw [pyDel, List.getElem?_append_right (by omega), hlen, List.getElem?_drop]
  congr 1
  omega

theorem distinctB_iff_nodup (l : List String) : distinctB l = true ↔ l.Nodup := by
  induction l with
  | nil => simp [distinctB]
  | cons s rest ih =>
    simp [distinctB, List.nodup_cons, ih, List.elem_iff]

theorem distinctB_sublist (l l' : List String) (hs : List.Sublist l' l)
    (h : distinctB l = true) : distinctB l' = true := by
  rw [distinctB_iff_nodup] at h ⊢
  exact List.Nodup.sublist hs h

theorem lowerNames_set_same (ps : List Plant) (i : Nat) (p p' : Plant)
    (hp : ps[i]? = some p) (hname : p'.name = p.name) :
    lowerNames (ps.set i p') = lowerNames ps := by
  have : lowerNames (ps.set i p') = (lowerNames ps).set i (pyLower p'.name) := by
    simp [lowerNames, List.map_set]
  rw [this, hname]
  apply set_of_getElem?
  simp [lowerNames, hp]

/-! ### Generation-path lemma shared by the claims about `normalizeAiTask` -/

theorem normalizeAiTask_interval (t : PyDict) :
    dget (normalizeAiTask t) "interval_days" =
      if dhasKey t "interval_days" then dget t "interval_days" else some (Json.num 7) := by
  by_cases hin : dhasKey t "interval_days" <;>
    by_cases hti : dhasKey t "title" <;>
    by_cases hde : dhasKey t "description" <;>
    simp +decide [normalizeAiTask, dhasKey_dset_ne, dget_dset_ne, dget_dset_self,
      hin, hti, hde]

/-! ### Claims -/

/-- C9 counterexample: when the backing object holds the text "[1, 2]" —
valid JSON that is not an object — `load_data` returns the parsed list, not
a mapping, so the claim that callers always receive a mapping is false. -/
theorem C9_counterexample :
    loadData (StoreBehavior.content "[1, 2]") = Json.arr [Json.num 1, Json.num 2] ∧
    isMapping (loadData (StoreBehavior.content "[1, 2]")) = false :=
  ⟨rfl, rfl⟩

/-- C9 (amended): `load_data` never raises on the modelled store behaviours
and returns the empty document on an absent bucket, a failing download, or
a JSON parse failure; but when the stored text parses as JSON of any type,
that value is returned as-is, even when it is not a mapping. -/
theorem C9_amended (b : StoreBehavior) :
    (loadData b = Json.obj [] ∨
      ∃ s v, b = StoreBehavior.content s ∧ jsonLoads s = some v ∧ loadData b = v) ∧
    (∀ s, jsonLoads s = none → loadData (StoreBehavior.content s) = Json.obj []) := by
  constructor
  · cases b with
    | noBucket => exact Or.inl rfl
    | downloadRaises => exact Or.inl rfl
    | content s =>
      cases hj : jsonLoads s with
      | none => exact Or.inl (by simp [loadData, hj])
      | some v => exact Or.inr ⟨s, v, rfl, hj, by simp [loadData, hj]⟩
  · intro s hj
    simp [loadData, hj]

/-- C9 witness: unparsable content yields the empty document. -/
theorem C9_witness : loadData (StoreBehavior.content "not json") = Json.obj [] :=
  (C9_amended (StoreBehavior.content "not json")).2 "not json" rfl

/-- C1 counterexample: the content "[{}]" parses to a JSON array whose one
object lacks "title", a failure mode the claim says yields the fallback
pair; the code instead keeps the AI-derived task with a default title, so
the result is not the fallback list. -/
theorem C1_counterexample :
    jsonLoads "[\x7b\x7d]" = some (Json.arr [Json.obj []]) ∧
    generateTasks (ApiResult.resp 200 "[\x7b\x7d]") =
      [[("done_today", Json.bool false), ("last_done", Json.null),
        ("title", Json.str "Untitled AI Task"),
        ("description", Json.str "No description provided."),
        ("interval_days", Json.num 7)]] ∧
    generateTasks (ApiResult.resp 200 "[\x7b\x7d]") ≠ fallbackTasks := by
  refine ⟨rfl, rfl, fun h => ?_⟩
  have hlen := congrArg List.length h
  rw [show generateTasks (ApiResult.resp 200 "[\x7b\x7d]") =
      [[("done_today", Json.bool false), ("last_done", Json.null),
        ("title", Json.str "Untitled AI Task"),
        ("description", Json.str "No description provided."),
        ("interval_days", Json.num 7)]] from rfl] at hlen
  simp [fallbackTasks] at hlen

/-- C1 (amended): on every generation-call failure mode that raises —
network error or timeout, non-2xx status, response text without a bracket
pair, or JSON parse failure (including arrays with non-object elements) —
`generate_tasks` returns exactly the fixed two-task fallback list (a 3-day
"Water" task and a 7-day "Check leaves" task, both not done); the result is
never a mix: it is either the full fallback list or the full normalized
AI-derived list.  A parsed array whose objects lack "title" is *kept*, with
the default title filled in, rather than replaced by the fallback. -/
theorem C1_amended (r : ApiResult) :
    (generateTasks r = fallbackTasks ∨
      ∃ content sub ts objs, r = ApiResult.resp 200 content ∧
        extractBracket content = some sub ∧ jsonLoads sub = some (Json.arr ts) ∧
        allObjs ts = some objs ∧ generateTasks r = objs.map normalizeAiTask) ∧
    generateTasks ApiResult.exn = fallbackTasks ∧
    (∀ status content, status ≠ 200 →
      generateTasks (ApiResult.resp status content) = fallbackTasks) ∧
    (∀ content, extractBracket content = none →
      generateTasks (ApiResult.resp 200 content) = fallbackTasks) ∧
    (∀ content sub, extractBracket content = some sub → jsonLoads sub = none →
      generateTasks (ApiResult.resp 200 content) = fallbackTasks) ∧
    fallbackTasks =
      [[("title", Json.str "Water"),
        ("description", Json.str "Check soil and water if needed"),
        ("interval_days", Json.num 3),
        ("done_today", Json.bool false),
        ("last_done", Json.null)],
       [("title", Json.str "Check leaves"),
        ("description", Json.str "Inspect for pests or disease"),
        ("interval_days", Json.num 7),
        ("done_today", Json.bool false),
        ("last_done", Json.null)]] := by
  refine ⟨?_, rfl, ?_, ?_, ?_, rfl⟩
  · cases r with
    | exn => exact Or.inl rfl
    | resp status content =>
      by_cases hs : status = 200
      · subst hs
        cases hE : extractBracket content with
        | none => exact Or.inl (by simp [generateTasks, hE])
        | some sub =>
          cases hJ : jsonLoads sub with
          | none => exact Or.inl (by simp [generateTasks, hE, hJ])
          | some v =>
            cases v with
            | arr ts =>
              cases hO : allObjs ts with
              | none => exact Or.inl (by simp [generateTasks, hE, hJ, hO])
              | some objs =>
                exact Or.inr ⟨content, sub, ts, objs, rfl, hE, hJ, hO,
                  by simp [generateTasks, hE, hJ, hO]⟩
            | null => exact Or.inl (by simp [generateTasks, hE, hJ])
            | bool b => exact Or.inl (by simp [generateTasks, hE, hJ])
            | num n => exact Or.inl (by simp [generateTasks, hE, hJ])
            | str s => exact Or.inl (by simp [generateTasks, hE, hJ])
            | obj kvs => exact Or.inl (by simp [generateTasks, hE, hJ])
      · exact Or.inl (by simp [generateTasks, hs])
  · intro status content hs
    simp [generateTasks, hs]
  · intro content hE
    simp [generateTasks, hE]
  · intro content sub hE hJ
    simp [generateTasks, hE, hJ]

/-- C1 witness: an HTTP 500 response yields exactly the fallback list. -/
theorem C1_witness : generateTasks (ApiResult.resp 500 "irrelevant") = fallbackTasks :=
  (C1_amended (ApiResult.resp 500 "irrelevant")).2.2.1 500 "irrelevant" (by decide)

/-- C3 counterexample: an AI response supplying `interval_days: 0` passes
normalization unchanged, and `add_plant` stores the task — a task enters
the document whose `interval_days` is not a positive integer. -/
theorem C3_counterexample :
    generateTasks (ApiResult.resp 200 "[\x7b\x22interval_days\x22: 0\x7d]") =
      [[("interval_days", Json.num 0), ("done_today", Json.bool false),
        ("last_done", Json.null), ("title", Json.str "Untitled AI Task"),
        ("description", Json.str "No description provided.")]] ∧
    (addPlant [] "7" "Ivy" "1y" "t0"
        (ApiResult.resp 200 "[\x7b\x22interval_days\x22: 0\x7d]")).map
      (fun d => (docPlants d "7").map (fun p => p.tasks.map intervalPos)) =
      some [[false]] :=
  ⟨rfl, rfl⟩

/-- C3 (amended): `interval_days` is a validated positive integer on the
user-input boundaries (the shared parse of `add_task_interval` and
`edit_task_value` only accepts positive integers), and the AI path replaces
a *missing* `interval_days` by the default 7 and the fallback intervals are
positive — but an AI-supplied `interval_days` value that is present is
stored as-is, without validation. -/
theorem C3_amended :
    (∀ s n, pyPosInt s = some n → 0 < n) ∧
    (∀ t, dhasKey t "interval_days" = false →
      dget (normalizeAiTask t) "interval_days" = some (Json.num 7)) ∧
    (∀ t, dhasKey t "interval_days" = true →
      dget (normalizeAiTask t) "interval_days" = dget t "interval_days") ∧
    fallbackTasks.all intervalPos = true := by
  refine ⟨?_, ?_, ?_, rfl⟩
  · intro s n h
    unfold pyPosInt at h
    cases hi : pyInt s with
    | none => rw [hi] at h; exact absurd h (by simp)
    | some m =>
      rw [hi] at h
      by_cases hm : m ≤ 0
      · simp [hm] at h
      · simp [hm] at h
        omega
  · intro t ht
    rw [normalizeAiTask_interval, ht]
    simp
  · intro t ht
    rw [normalizeAiTask_interval, ht]
    simp

/-- C3 witness: the user-input parse accepts 3 and 3 is positive; a task
without `interval_days` gets the default 7. -/
theorem C3_witness :
    (0 : Int) < 3 ∧ dget (normalizeAiTask [("title", Json.str "T")]) "interval_days" =
      some (Json.num 7) :=
  ⟨C3_amended.1 "3" 3 rfl, C3_amended.2.1 [("title", Json.str "T")] rfl⟩



theorem toggleTask_eq (d : Document) (uid : String) (pi ti : Nat) (today : String)
    (plant : Plant) (task : PyDict)
    (hp : (docPlants d uid)[pi]? = some plant) (ht : plant.tasks[ti]? = some task) :
    toggleTask d uid pi ti today =
      some (docSet d uid ((docPlants d uid).set pi
        { plant with tasks := plant.tasks.set ti (toggledTask task today) })) := by
  simp only [toggleTask, hp, ht, toggledTask]

theorem updated_plant_read (d : Document) (uid : String) (pi : Nat) (p : Plant)
    (hpi : pi < (docPlants d uid).length) :
    (docPlants (docSet d uid ((docPlants d uid).set pi p)) uid)[pi]? = some p := by
  rw [docPlants_docSet_self]
  simp [List.getElem?_set_self', hpi]

theorem updated_tasks_read (plant : Plant) (ti : Nat) (t2 : PyDict)
    (hti : ti < plant.tasks.length) :
    ({ plant with tasks := plant.tasks.set ti t2 } : Plant).tasks[ti]? = some t2 := by
  simp [List.getElem?_set_self', hti]

theorem toggledTask_done (task : PyDict) (today : String) :
    dget (toggledTask task today) "done_today" =
      some (Json.bool (!(pyTruthy (dgetD task "done_today" (Json.bool false))))) := by
  unfold toggledTask
  by_cases hb : (!(pyTruthy (dgetD task "done_today" (Json.bool false))) : Bool) = true
  · rw [if_pos hb,
      dget_dset_ne (dset task "done_today"
        (Json.bool (!(pyTruthy (dgetD task "done_today" (Json.bool false))))))
        "last_done" "done_today" (Json.str today) (by decide),
      dget_dset_self]
  · rw [if_neg hb, dget_dset_self]

theorem toggledTask_last_done (task : PyDict) (today : String) :
    dget (toggledTask task today) "last_done" =
      if pyTruthy (dgetD task "done_today" (Json.bool false)) then dget task "last_done"
      else some (Json.str today) := by
  unfold toggledTask
  by_cases hb : pyTruthy (dgetD task "done_today" (Json.bool false)) = true
  · rw [hb]
    simp [dget_dset_ne task "done_today" "last_done" (Json.bool false) (by decide)]
  · rw [Bool.not_eq_true] at hb
    rw [hb]
    simp [dget_dset_self]

theorem doneOf_update (d : Document) (uid : String) (pi ti : Nat) (plant : Plant)
    (t2 : PyDict) (hpi : pi < (docPlants d uid).length) (hti : ti < plant.tasks.length) :
    doneOf (docSet d uid ((docPlants d uid).set pi
        { plant with tasks := plant.tasks.set ti t2 })) uid pi ti =
      some (pyTruthy (dgetD t2 "done_today" (Json.bool false))) := by
  unfold doneOf
  rw [updated_plant_read d uid pi _ hpi]
  simp only [Option.some_bind]
  rw [updated_tasks_read plant ti t2 hti]
  simp

theorem lastDoneOf_update (d : Document) (uid : String) (pi ti : Nat) (plant : Plant)
    (t2 : PyDict) (hpi : pi < (docPlants d uid).length) (hti : ti < plant.tasks.length) :
    lastDoneOf (docSet d uid ((docPlants d uid).set pi
        { plant with tasks := plant.tasks.set ti t2 })) uid pi ti =
      some (dget t2 "last_done") := by
  unfold lastDoneOf
  rw [updated_plant_read d uid pi _ hpi]
  simp only [Option.some_bind]
  rw [updated_tasks_read plant ti t2 hti]
  simp

/-- C2: on valid indices `toggle_task` flips `done_today` (read as the
program reads it, `task.get("done_today", False)`); it stamps `last_done`
with the current date exactly on the false-to-true transition and leaves
`last_done` untouched on the true-to-false transition; toggling the same
task twice restores `done_today` to its original value; and on an invalid
index the handler replies "Task not found" without saving, so the document
is unchanged (modelled: `toggleTask` returns `none`). -/
theorem C2_toggle (d : Document) (uid : String) (pi ti : Nat) (today today2 : String)
    (plant : Plant) (task : PyDict)
    (hp : (docPlants d uid)[pi]? = some plant)
    (ht : plant.tasks[ti]? = some task) :
    ∃ d', toggleTask d uid pi ti today = some d' ∧
      doneOf d' uid pi ti = some (!(pyTruthy (dgetD task "done_today" (Json.bool false)))) ∧
      (pyTruthy (dgetD task "done_today" (Json.bool false)) = false →
        lastDoneOf d' uid pi ti = some (some (Json.str today))) ∧
      (pyTruthy (dgetD task "done_today" (Json.bool false)) = true →
        lastDoneOf d' uid pi ti = some (dget task "last_done")) ∧
      (∃ d'', toggleTask d' uid pi ti today2 = some d'' ∧
        doneOf d'' uid pi ti = doneOf d uid pi ti) ∧
      (∀ pj tj : Nat,
        (∀ q, (docPlants d uid)[pj]? = some q → q.tasks[tj]? = none) →
        toggleTask d uid pj tj today = none) := by
  have hpi : pi < (docPlants d uid).length := (List.getElem?_eq_some.mp hp).1
  have hti : ti < plant.tasks.length := (List.getElem?_eq_some.mp ht).1
  refine ⟨_, toggleTask_eq d uid pi ti today plant task hp ht, ?_, ?_, ?_, ?_, ?_⟩
  · rw [doneOf_update d uid pi ti plant (toggledTask task today) hpi hti, dgetD,
      toggledTask_done]
    simp [pyTruthy]
  · intro hfalse
    rw [lastDoneOf_update d uid pi ti plant (toggledTask task today) hpi hti,
      toggledTask_last_done, hfalse]
    simp
  · intro htrue
    rw [lastDoneOf_update d uid pi ti plant (toggledTask task today) hpi hti,
      toggledTask_last_done, htrue]
    simp
  · have hp' := updated_plant_read d uid pi
      { plant with tasks := plant.tasks.set ti (toggledTask task today) } hpi
    have ht' := updated_tasks_read plant ti (toggledTask task today) hti
    have hpi2 : pi < (docPlants (docSet d uid ((docPlants d uid).set pi
        { plant with tasks := plant.tasks.set ti (toggledTask task today) })) uid).length := by
      rw [docPlants_docSet_self]
      simpa using hpi
    have hti2 : ti < (plant.tasks.set ti (toggledTask task today)).length := by
      simpa using hti
    refine ⟨_, toggleTask_eq _ uid pi ti today2 _ (toggledTask task today) hp' ht', ?_⟩
    rw [doneOf_update _ uid pi ti _ (toggledTask (toggledTask task today) today2) hpi2 hti2,
      dgetD, toggledTask_done]
    have : doneOf d uid pi ti =
        some (pyTruthy (dgetD task "done_today" (Json.bool false))) := by
      simp [doneOf, hp, ht]
    rw [this]
    simp only [Option.getD_some, pyTruthy]
    congr 1
    rw [dgetD, toggledTask_done]
    simp [pyTruthy]
  · intro pj tj hno
    simp only [toggleTask]
    cases hq : (docPlants d uid)[pj]? with
    | none => rfl
    | some q =>
      simp only [hq]
      rw [hno q hq]

/-- C2 witness: a concrete one-plant, one-task document with the task not
done; the toggle succeeds and all the stated properties hold. -/
theorem C2_witness :
    ∃ d', toggleTask [("u", [⟨"Fern", "1y", "t0",
        [[("title", Json.str "Water"), ("done_today", Json.bool false),
          ("last_done", Json.null)]]⟩])] "u" 0 0 "2026-10-12" = some d' ∧
      doneOf d' "u" 0 0 = some (!(pyTruthy (dgetD
        [("title", Json.str "Water"), ("done_today", Json.bool false),
          ("last_done", Json.null)] "done_today" (Json.bool false)))) ∧
      (pyTruthy (dgetD [("title", Json.str "Water"), ("done_today", Json.bool false),
          ("last_done", Json.null)] "done_today" (Json.bool false)) = false →
        lastDoneOf d' "u" 0 0 = some (some (Json.str "2026-10-12"))) ∧
      (pyTruthy (dgetD [("title", Json.str "Water"), ("done_today", Json.bool false),
          ("last_done", Json.null)] "done_today" (Json.bool false)) = true →
        lastDoneOf d' "u" 0 0 = some (dget [("title", Json.str "Water"),
          ("done_today", Json.bool false), ("last_done", Json.null)] "last_done")) ∧
      (∃ d'', toggleTask d' "u" 0 0 "2026-10-13" = some d'' ∧
        doneOf d'' "u" 0 0 = doneOf [("u", [⟨"Fern", "1y", "t0",
          [[("title", Json.str "Water"), ("done_today", Json.bool false),
            ("last_done", Json.null)]]⟩])] "u" 0 0) ∧
      (∀ pj tj : Nat,
        (∀ q, (docPlants [("u", [⟨"Fern", "1y", "t0",
            [[("title", Json.str "Water"), ("done_today", Json.bool false),
              ("last_done", Json.null)]]⟩])] "u")[pj]? = some q →
          q.tasks[tj]? = none) →
        toggleTask [("u", [⟨"Fern", "1y", "t0",
          [[("title", Json.str "Water"), ("done_today", Json.bool false),
            ("last_done", Json.null)]]⟩])] "u" pj tj "2026-10-12" = none) :=
  C2_toggle _ "u" 0 0 "2026-10-12" "2026-10-13" _ _ rfl rfl

/-- C6: `delete_plant` and `delete_task` fail on an out-of-range index
(the handler raises an uncaught `IndexError` before any mutation or save,
so the document is unchanged — modelled `none`), and otherwise remove the
entity in place: entries before the deleted index are unchanged and every
entry previously at an index greater than the deleted one shifts down by
exactly one; for task deletion all other plants are untouched. -/
theorem C6_delete (d : Document) (uid : String) (pi ti : Nat) :
    (pi ≥ (docPlants d uid).length → deletePlant d uid pi = none) ∧
    (∀ (_ : pi < (docPlants d uid).length),
      ∃ d', deletePlant d uid pi = some d' ∧
        (docPlants d' uid).length = (docPlants d uid).length - 1 ∧
        (∀ j, j < pi → (docPlants d' uid)[j]? = (docPlants d uid)[j]?) ∧
        (∀ j, pi < j → (docPlants d' uid)[j - 1]? = (docPlants d uid)[j]?)) ∧
    (∀ plant, (docPlants d uid)[pi]? = some plant →
      (ti ≥ plant.tasks.length → deleteTask d uid pi ti = none) ∧
      (∀ (_ : ti < plant.tasks.length),
        ∃ d', deleteTask d uid pi ti = some d' ∧
          ∃ plant', (docPlants d' uid)[pi]? = some plant' ∧
            plant'.name = plant.name ∧ plant'.age = plant.age ∧
            plant'.added = plant.added ∧
            plant'.tasks.length = plant.tasks.length - 1 ∧
            (∀ j, j < ti → plant'.tasks[j]? = plant.tasks[j]?) ∧
            (∀ j, ti < j → plant'.tasks[j - 1]? = plant.tasks[j]?) ∧
            (∀ j, j ≠ pi → (docPlants d' uid)[j]? = (docPlants d uid)[j]?))) ∧
    ((docPlants d uid)[pi]? = none → deleteTask d uid pi ti = none) := by
  refine ⟨?_, ?_, ?_, ?_⟩
  · intro hge
    simp [deletePlant, Nat.not_lt_of_ge hge]
  · intro hlt
    refine ⟨docSet d uid (pyDel (docPlants d uid) pi), by simp [deletePlant, hlt], ?_, ?_, ?_⟩
    · rw [docPlants_docSet_self]
      exact pyDel_length _ pi hlt
    · intro j hj
      rw [docPlants_docSet_self]
      exact pyDel_getElem?_lt _ pi j hlt hj
    · intro j hj
      rw [docPlants_docSet_self]
      exact pyDel_getElem?_ge _ pi j hlt hj
  · intro plant hplant
    have hpi : pi < (docPlants d uid).length := (List.getElem?_eq_some.mp hplant).1
    constructor
    · intro hge
      simp [deleteTask, hplant, Nat.not_lt_of_ge hge]
    · intro hlt
      refine ⟨docSet d uid ((docPlants d uid).set pi { plant with tasks := pyDel plant.tasks ti }), by simp [deleteTask, hplant, hlt], ?_⟩
      refine ⟨{ plant with tasks := pyDel plant.tasks ti }, ?_, rfl, rfl, rfl, ?_, ?_, ?_, ?_⟩
      · rw [docPlants_docSet_self]
        simp [List.getElem?_set_self', hpi]
      · simpa using pyDel_length plant.tasks ti hlt
      · intro j hj
        simpa using pyDel_getElem?_lt plant.tasks ti j hlt hj
      · intro j hj
        simpa using pyDel_getElem?_ge plant.tasks ti j hlt hj
      · intro j hj
        rw [docPlants_docSet_self, List.getElem?_set_ne (Ne.symm hj)]
  · intro hnone
    simp [deleteTask, hnone]

/-- C6 witness: on a three-plant document, deleting index 5 fails with the
document unchanged, deleting index 1 drops the middle plant and shifts the
later one down; deleting a task in range shortens the task list. -/
theorem C6_witness :
    deletePlant [("u", [⟨"A", "1", "t", []⟩, ⟨"B", "2", "t", []⟩,
        ⟨"C", "3", "t", []⟩])] "u" 5 = none ∧
    (∃ d', deletePlant [("u", [⟨"A", "1", "t", []⟩, ⟨"B", "2", "t", []⟩,
        ⟨"C", "3", "t", []⟩])] "u" 1 = some d' ∧
      (docPlants d' "u").length = (docPlants [("u", [⟨"A", "1", "t", []⟩,
        ⟨"B", "2", "t", []⟩, ⟨"C", "3", "t", []⟩])] "u").length - 1 ∧
      (∀ j, j < 1 → (docPlants d' "u")[j]? = (docPlants [("u", [⟨"A", "1", "t", []⟩,
        ⟨"B", "2", "t", []⟩, ⟨"C", "3", "t", []⟩])] "u")[j]?) ∧
      (∀ j, 1 < j → (docPlants d' "u")[j - 1]? = (docPlants [("u", [⟨"A", "1", "t", []⟩,
        ⟨"B", "2", "t", []⟩, ⟨"C", "3", "t", []⟩])] "u")[j]?)) ∧
    deleteTask [("u", [⟨"A", "1", "t", [[("title", Json.str "W")]]⟩])] "u" 0 3 = none :=
  ⟨(C6_delete _ "u" 5 0).1 (by decide),
   (C6_delete _ "u" 1 0).2.1 (by decide),
   ((C6_delete [("u", [⟨"A", "1", "t", [[("title", Json.str "W")]]⟩])] "u" 0 3).2.2.1
       ⟨"A", "1", "t", [[("title", Json.str "W")]]⟩ rfl).1 (by decide)⟩

/-- Positivity of the shared interval parse: `int(text)`, raising (caught)
when the value is not positive, only ever yields positive integers. -/
theorem pyPosInt_pos (s : String) (n : Int) (h : pyPosInt s = some n) : 0 < n := by
  unfold pyPosInt at h
  cases hi : pyInt s with
  | none => rw [hi] at h; exact absurd h (by simp)
  | some m =>
    rw [hi] at h
    by_cases hm : m ≤ 0
    · simp [hm] at h
    · simp [hm] at h
      omega

/-- C7: editing `interval_days` through `edit_task_value` with text that
does not parse as a positive integer replies with an error and re-enters
the same await-value state with the scratch kept and the document untouched
(no save path is reached); text parsing as a positive integer overwrites
exactly the `interval_days` field of the addressed task and the handler
replies with the old value; invalid indices end with "Task not found". -/
theorem C7_edit_interval (sc : Scratch) (d : Document) (uid text : String) (pi ti : Nat)
    (hpi : sc.edit_task_plant_idx = some pi) (hti : sc.edit_task_idx = some ti)
    (hf : sc.edit_field = some "interval_days") :
    (pyPosInt text = none → editTaskValue sc d uid text = (EditResult.retry, sc)) ∧
    (∀ n, pyPosInt text = some n → 0 < n ∧
      (∀ plant task, (docPlants d uid)[pi]? = some plant → plant.tasks[ti]? = some task →
        ∃ d', editTaskValue sc d uid text =
            (EditResult.updated (dgetD task "interval_days" (Json.str "None")) d',
              emptyScratch) ∧
          ∃ plant' task', (docPlants d' uid)[pi]? = some plant' ∧
            plant'.tasks[ti]? = some task' ∧
            dget task' "interval_days" = some (Json.num n) ∧
            (∀ k, k ≠ "interval_days" → dget task' k = dget task k)) ∧
      (∀ plant, (docPlants d uid)[pi]? = some plant → plant.tasks[ti]? = none →
        editTaskValue sc d uid text = (EditResult.notFound, emptyScratch)) ∧
      ((docPlants d uid)[pi]? = none →
        editTaskValue sc d uid text = (EditResult.notFound, emptyScratch))) := by
  constructor
  · intro hparse
    simp [editTaskValue, hpi, hti, hf, hparse]
  · intro n hparse
    refine ⟨pyPosInt_pos text n hparse, ?_, ?_, ?_⟩
    · intro plant task hplant htask
      have hpilt : pi < (docPlants d uid).length := (List.getElem?_eq_some.mp hplant).1
      have htilt : ti < plant.tasks.length := (List.getElem?_eq_some.mp htask).1
      refine ⟨docSet d uid ((docPlants d uid).set pi { plant with tasks := plant.tasks.set ti (dset task "interval_days" (Json.num n)) }), by simp [editTaskValue, hpi, hti, hf, hparse, editTaskCommit, hplant, htask, dgetD], ?_⟩
      refine ⟨{ plant with tasks := plant.tasks.set ti (dset task "interval_days" (Json.num n)) }, dset task "interval_days" (Json.num n), ?_, ?_, ?_, ?_⟩
      · rw [docPlants_docSet_self]
        simp [List.getElem?_set_self', hpilt]
      · simp [List.getElem?_set_self', htilt]
      · exact dget_dset_self task "interval_days" (Json.num n)
      · intro k hk
        exact dget_dset_ne task "interval_days" k (Json.num n) hk
    · intro plant hplant htask
      simp [editTaskValue, hpi, hti, hf, hparse, editTaskCommit, hplant, htask]
    · intro hnone
      simp [editTaskValue, hpi, hti, hf, hparse, editTaskCommit, hnone]

/-- C7 witness: on a one-plant, one-task document with the interval field
selected, the texts "abc" and "0" re-enter the await state with everything
untouched, and "4" performs the update carrying the old value. -/
theorem C7_witness :
    editTaskValue ⟨none, none, some 0, some 0, some "interval_days", none⟩
      [("u", [⟨"F", "1", "t", [[("title", Json.str "W"),
        ("interval_days", Json.num 3)]]⟩])] "u" "abc" =
      (EditResult.retry, ⟨none, none, some 0, some 0, some "interval_days", none⟩) ∧
    editTaskValue ⟨none, none, some 0, some 0, some "interval_days", none⟩
      [("u", [⟨"F", "1", "t", [[("title", Json.str "W"),
        ("interval_days", Json.num 3)]]⟩])] "u" "0" =
      (EditResult.retry, ⟨none, none, some 0, some 0, some "interval_days", none⟩) ∧
    (∃ d', editTaskValue ⟨none, none, some 0, some 0, some "interval_days", none⟩
        [("u", [⟨"F", "1", "t", [[("title", Json.str "W"),
          ("interval_days", Json.num 3)]]⟩])] "u" "4" =
        (EditResult.updated (dgetD [("title", Json.str "W"), ("interval_days", Json.num 3)]
          "interval_days" (Json.str "None")) d', emptyScratch) ∧
      ∃ plant' task', (docPlants d' "u")[0]? = some plant' ∧
        plant'.tasks[0]? = some task' ∧
        dget task' "interval_days" = some (Json.num 4) ∧
        (∀ k, k ≠ "interval_days" →
          dget task' k = dget [("title", Json.str "W"), ("interval_days", Json.num 3)] k)) :=
  ⟨(C7_edit_interval _ _ "u" "abc" 0 0 rfl rfl rfl).1 rfl,
   (C7_edit_interval _ _ "u" "0" 0 0 rfl rfl rfl).1 rfl,
   (((C7_edit_interval _ _ "u" "4" 0 0 rfl rfl rfl).2 4 rfl).2.1 _ _ rfl rfl)⟩

/-- C10: at the terminal interval step of the add-task flow, a missing
`selected_plant_idx` defaults to 0 (`user_data.get("selected_plant_idx",
0)`), so the new task is appended to the user's first plant and the flow
completes normally instead of failing or asking again. -/
theorem C10_default_first_plant (sc : Scratch) (d : Document) (uid text : String)
    (n : Int) (draft : PyDict) (plant : Plant)
    (hsel : sc.selected_plant_idx = none)
    (hdraft : sc.new_task = some draft)
    (hn : pyPosInt text = some n)
    (hp : (docPlants d uid)[0]? = some plant) :
    addTaskInterval sc d uid text =
      (FlowOutcome.completed, { sc with new_task := none, selected_plant_idx := none },
        docSet d uid ((docPlants d uid).set 0 { plant with tasks := plant.tasks ++
          [dset (dset (dset draft "interval_days" (Json.num n))
            "done_today" (Json.bool false)) "last_done" Json.null] })) := by
  simp [addTaskInterval, hn, hsel, hp, hdraft]

/-- C10 witness: a two-plant document, no plant selected in the scratch;
the interval text "3" appends the draft to the first plant "A". -/
theorem C10_witness :
    addTaskInterval ⟨none, none, none, none, none, some [("title", Json.str "T")]⟩
      [("u", [⟨"A", "1", "t", []⟩, ⟨"B", "2", "t", []⟩])] "u" "3" =
      (FlowOutcome.completed,
        { (⟨none, none, none, none, none, some [("title", Json.str "T")]⟩ : Scratch) with
          new_task := none, selected_plant_idx := none },
        docSet [("u", [⟨"A", "1", "t", []⟩, ⟨"B", "2", "t", []⟩])] "u"
          ((docPlants [("u", [⟨"A", "1", "t", []⟩, ⟨"B", "2", "t", []⟩])] "u").set 0
            { (⟨"A", "1", "t", []⟩ : Plant) with tasks := ([] : List PyDict) ++
              [dset (dset (dset [("title", Json.str "T")] "interval_days" (Json.num 3))
                "done_today" (Json.bool false)) "last_done" Json.null] })) :=
  C10_default_first_plant _ _ "u" "3" 3 [("title", Json.str "T")] ⟨"A", "1", "t", []⟩
    rfl rfl rfl rfl

/-- C5 counterexample: with the generation call returning HTTP 200 and the
content "[]" (a valid empty JSON array), `add_plant` succeeds and stores a
plant whose task list is empty — the claim that the created plant's task
list is always non-empty is false. -/
theorem C5_counterexample :
    (addPlant [] "u" "Monstera" "6months" "t0" (ApiResult.resp 200 "[]")).map
      (fun d => (docPlants d "u").map (fun p => (p.name, p.age, p.added, p.tasks.length))) =
      some [("Monstera", "6months", "t0", 0)] :=
  rfl

/-- C5 (amended): `add_plant` with a name matching an existing plant of the
same user case-insensitively fails with the duplicate-name reply before
anything is appended or saved (modelled `none`); otherwise the created
plant carries `added` = the current timestamp and `tasks` = the generation
result, which is the non-empty two-task fallback on every generation
failure but may be empty when the call succeeds with an empty JSON
array. -/
theorem C5_addPlant (d : Document) (uid name age now : String) (r : ApiResult) :
    ((docPlants d uid).any (fun p => pyLower p.name == pyLower name) = true →
      addPlant d uid name age now r = none) ∧
    ((docPlants d uid).any (fun p => pyLower p.name == pyLower name) = false →
      ∃ d', addPlant d uid name age now r = some d' ∧
        docPlants d' uid = docPlants d uid ++ [⟨name, age, now, generateTasks r⟩]) ∧
    (generateTasks ApiResult.exn = fallbackTasks ∧ fallbackTasks.length = 2) ∧
    (generateTasks r = [] → ∃ content, r = ApiResult.resp 200 content) := by
  refine ⟨?_, ?_, ⟨rfl, rfl⟩, ?_⟩
  · intro hany
    simp only [addPlant, docPlants_ensure, hany]
    rfl
  · intro hany
    refine ⟨docSet (if (docGet d uid).isSome then d else docSet d uid []) uid
      (docPlants d uid ++ [⟨name, age, now, generateTasks r⟩]), ?_, ?_⟩
    · simp only [addPlant, docPlants_ensure, hany]
      rfl
    · rw [docPlants_docSet_self]
  · intro hempty
    cases r with
    | exn =>
      rw [show generateTasks ApiResult.exn = fallbackTasks from rfl] at hempty
      exact absurd (congrArg List.length hempty) (by simp [fallbackTasks])
    | resp status content =>
      by_cases hs : status = 200
      · exact ⟨content, by rw [hs]⟩
      · rw [show generateTasks (ApiResult.resp status content) = fallbackTasks from
          by simp [generateTasks, hs]] at hempty
        exact absurd (congrArg List.length hempty) (by simp [fallbackTasks])

/-- C5 witness: adding "fERN" to a document already holding "Fern" fails;
adding "Rose" to it succeeds, appending a plant with the given timestamp
and the fallback tasks (the generation call having failed). -/
theorem C5_witness :
    addPlant [("u", [⟨"Fern", "1y", "t0", []⟩])] "u" "fERN" "2y" "t1" ApiResult.exn = none ∧
    (∃ d', addPlant [("u", [⟨"Fern", "1y", "t0", []⟩])] "u" "Rose" "2y" "t1"
        ApiResult.exn = some d' ∧
      docPlants d' "u" = docPlants [("u", [⟨"Fern", "1y", "t0", []⟩])] "u" ++
        [⟨"Rose", "2y", "t1", generateTasks ApiResult.exn⟩]) :=
  ⟨(C5_addPlant [("u", [⟨"Fern", "1y", "t0", []⟩])] "u" "fERN" "2y" "t1" ApiResult.exn).1
     (by decide),
   (C5_addPlant [("u", [⟨"Fern", "1y", "t0", []⟩])] "u" "Rose" "2y" "t1" ApiResult.exn).2.1
     (by decide)⟩

/-- C8 counterexample: the terminal interval step of the add-task flow,
reached with a stale plant index, ends the flow ("Plant not found",
`ConversationHandler.END`) without clearing the scratch: the draft task and
the selected index are left behind, so the scratch is not empty after the
flow returns to its non-active state. -/
theorem C8_counterexample :
    addTaskInterval ⟨some 1, none, none, none, none, some [("title", Json.str "T")]⟩
      [("u", [⟨"F", "1", "t", []⟩])] "u" "3" =
      (FlowOutcome.ended, ⟨some 1, none, none, none, none, some [("title", Json.str "T")]⟩,
        [("u", [⟨"F", "1", "t", []⟩])]) ∧
    (⟨some 1, none, none, none, none, some [("title", Json.str "T")]⟩ : Scratch) ≠
      emptyScratch := by
  refine ⟨rfl, fun h => ?_⟩
  have := congrArg Scratch.new_task h
  simp [emptyScratch] at this

/-- C8 (amended): the scratch is cleared on the reachable exits of the edit
flows and on `/cancel`, and the successful completion of the add-task flow
pops exactly its two keys (`new_task`, `selected_plant_idx`); but the
add-task flow's stale-plant-index error exit returns END with the scratch
untouched, so the scratch is *not* cleared on that error exit. -/
theorem C8_amended :
    (∀ sc, (cancelConversation sc).2 = emptyScratch) ∧
    (∀ sc d uid text sc' d',
      addTaskInterval sc d uid text = (FlowOutcome.completed, sc', d') →
      sc' = { sc with new_task := none, selected_plant_idx := none }) ∧
    (∀ sc d uid text sc' d',
      addTaskInterval sc d uid text = (FlowOutcome.ended, sc', d') → sc' = sc) ∧
    (∀ sc d uid text, (editPlantValue sc d uid text).1 ≠ EditResult.exn →
      (editPlantValue sc d uid text).2 = emptyScratch) ∧
    (∀ sc d uid text, (editTaskValue sc d uid text).1 ≠ EditResult.exn →
      (editTaskValue sc d uid text).1 ≠ EditResult.retry →
      (editTaskValue sc d uid text).2 = emptyScratch) := by
  refine ⟨fun sc => rfl, ?_, ?_, ?_, ?_⟩
  · intro sc d uid text sc' d' h
    simp only [addTaskInterval] at h
    cases hparse : pyPosInt text with
    | none =>
      simp only [hparse] at h
      exact absurd (congrArg Prod.fst h) (by simp)
    | some n =>
      simp only [hparse] at h
      cases hp : (docPlants d uid)[sc.selected_plant_idx.getD 0]? with
      | none =>
        simp only [hp] at h
        exact absurd (congrArg Prod.fst h) (by simp)
      | some plant =>
        simp only [hp] at h
        cases hnt : sc.new_task with
        | none =>
          simp only [hnt] at h
          exact absurd (congrArg Prod.fst h) (by simp)
        | some draft =>
          simp only [hnt] at h
          exact (congrArg (fun p => p.2.1) h).symm
  · intro sc d uid text sc' d' h
    simp only [addTaskInterval] at h
    cases hparse : pyPosInt text with
    | none =>
      simp only [hparse] at h
      exact absurd (congrArg Prod.fst h) (by simp)
    | some n =>
      simp only [hparse] at h
      cases hp : (docPlants d uid)[sc.selected_plant_idx.getD 0]? with
      | none =>
        simp only [hp] at h
        exact (congrArg (fun p => p.2.1) h).symm
      | some plant =>
        simp only [hp] at h
        cases hnt : sc.new_task with
        | none =>
          simp only [hnt] at h
          exact absurd (congrArg Prod.fst h) (by simp)
        | some draft =>
          simp only [hnt] at h
          exact absurd (congrArg Prod.fst h) (by simp)
  · intro sc d uid text h
    cases hpi : sc.edit_plant_idx with
    | none => simp [editPlantValue, hpi] at h
    | some pi =>
      cases hf : sc.edit_field with
      | none => simp [editPlantValue, hpi, hf] at h
      | some field =>
        cases hp : (docPlants d uid)[pi]? with
        | none => simp [editPlantValue, hpi, hf, hp]
        | some plant =>
          cases hgf : plantGetField plant field with
          | none => simp [editPlantValue, hpi, hf, hp, hgf] at h
          | some old => simp [editPlantValue, hpi, hf, hp, hgf]
  · intro sc d uid text h hr
    cases hpi : sc.edit_task_plant_idx with
    | none => simp [editTaskValue, hpi] at h
    | some pi =>
      cases hti : sc.edit_task_idx with
      | none => simp [editTaskValue, hpi, hti] at h
      | some ti =>
        cases hf : sc.edit_field with
        | none => simp [editTaskValue, hpi, hti, hf] at h
        | some field =>
          by_cases hfi : field = "interval_days"
          · cases hparse : pyPosInt text with
            | none => simp [editTaskValue, hpi, hti, hf, hfi, hparse] at hr
            | some n =>
              simp only [editTaskValue, hpi, hti, hf, hfi, if_pos rfl, hparse]
              unfold editTaskCommit
              cases hp : (docPlants d uid)[pi]? with
              | none => simp [hp]
              | some plant =>
                cases hta : plant.tasks[ti]? with
                | none => simp [hp, hta]
                | some task => simp [hp, hta]
          · simp only [editTaskValue, hpi, hti, hf, if_neg hfi]
            unfold editTaskCommit
            cases hp : (docPlants d uid)[pi]? with
            | none => simp [hp]
            | some plant =>
              cases hta : plant.tasks[ti]? with
              | none => simp [hp, hta]
              | some task => simp [hp, hta]

/-- C8 witness: `/cancel` clears a populated scratch; a successful add-task
completion leaves the scratch with its two keys popped (here: empty). -/
theorem C8_witness :
    (cancelConversation ⟨some 0, some 1, none, none, some "name", none⟩).2 =
      emptyScratch ∧
    (addTaskInterval ⟨some 0, none, none, none, none, some [("title", Json.str "T")]⟩
        [("u", [⟨"F", "1", "t", []⟩])] "u" "3").2.1 =
      { (⟨some 0, none, none, none, none, some [("title", Json.str "T")]⟩ : Scratch) with
        new_task := none, selected_plant_idx := none } :=
  ⟨C8_amended.1 _,
   C8_amended.2.1 ⟨some 0, none, none, none, none, some [("title", Json.str "T")]⟩
     [("u", [⟨"F", "1", "t", []⟩])] "u" "3" _ _ rfl⟩

theorem namesUnique_pyDel (ps : List Plant) (i : Nat) (h : namesUnique ps = true) :
    namesUnique (pyDel ps i) = true := by
  unfold namesUnique at h ⊢
  refine distinctB_sublist _ _ ?_ h
  rw [pyDel_eq_eraseIdx]
  simp only [lowerNames]
  exact List.Sublist.map _ (List.eraseIdx_sublist ps i)

theorem namesUnique_set_same (ps : List Plant) (i : Nat) (p p' : Plant)
    (hp : ps[i]? = some p) (hname : p'.name = p.name) :
    namesUnique (ps.set i p') = namesUnique ps := by
  unfold namesUnique
  rw [lowerNames_set_same ps i p p' hp hname]

theorem namesUnique_append (ps : List Plant) (p : Plant)
    (hany : ps.any (fun q => pyLower q.name == pyLower p.name) = false)
    (hU : namesUnique ps = true) : namesUnique (ps ++ [p]) = true := by
  unfold namesUnique at hU ⊢
  rw [distinctB_iff_nodup] at hU ⊢
  have hmap : lowerNames (ps ++ [p]) = lowerNames ps ++ [pyLower p.name] := by
    simp [lowerNames]
  rw [hmap, List.Perm.nodup_iff (List.perm_append_singleton _ _)]
  refine List.nodup_cons.mpr ⟨?_, hU⟩
  intro hmem
  simp only [lowerNames, List.mem_map] at hmem
  obtain ⟨q, hq, he⟩ := hmem
  have hfa := List.any_eq_false.mp hany q hq
  exact hfa (beq_iff_eq.mpr he)


theorem namesUnique_set_tasks (ps : List Plant) (i : Nat) (p : Plant) (ts : List PyDict)
    (hp : ps[i]? = some p) :
    namesUnique (ps.set i { p with tasks := ts }) = namesUnique ps :=
  namesUnique_set_same ps i p { p with tasks := ts } hp rfl

theorem namesUnique_set_age (ps : List Plant) (i : Nat) (p : Plant) (v : String)
    (hp : ps[i]? = some p) :
    namesUnique (ps.set i { p with age := v }) = namesUnique ps :=
  namesUnique_set_same ps i p { p with age := v } hp rfl

theorem editTaskCommit_updated (d : Document) (uid : String) (pi ti : Nat)
    (field : String) (v old : Json) (d' : Document) (sc' : Scratch)
    (h : editTaskCommit d uid pi ti field v = (EditResult.updated old d', sc')) :
    ∃ plant task, (docPlants d uid)[pi]? = some plant ∧ plant.tasks[ti]? = some task ∧
      d' = docSet d uid ((docPlants d uid).set pi
        { plant with tasks := plant.tasks.set ti (dset task field v) }) := by
  unfold editTaskCommit at h
  cases hp : (docPlants d uid)[pi]? with
  | none =>
    simp only [hp] at h
    simp at h
  | some plant =>
    simp only [hp] at h
    cases hta : plant.tasks[ti]? with
    | none =>
      simp only [hta] at h
      simp at h
    | some task =>
      simp only [hta] at h
      have h1 := congrArg Prod.fst h
      simp only [EditResult.updated.injEq] at h1
      exact ⟨plant, task, rfl, hta, h1.2.symm⟩

/-- C4 counterexample: on a document where the names "Apple" and "Bud" are
case-insensitively unique, editing plant 1's name to "apple" through
`edit_plant_value` succeeds with no duplicate check, leaving the user's
plant list with two case-insensitively equal names — so not every
operation preserves the uniqueness invariant. -/
theorem C4_counterexample :
    namesUnique (docPlants [("u", [⟨"Apple", "1", "t", []⟩,
      ⟨"Bud", "2", "t", []⟩])] "u") = true ∧
    (∃ old d', editPlantValue ⟨none, some 1, none, none, some "name", none⟩
        [("u", [⟨"Apple", "1", "t", []⟩, ⟨"Bud", "2", "t", []⟩])] "u" "apple" =
        (EditResult.updated old d', emptyScratch) ∧
      namesUnique (docPlants d' "u") = false) :=
  ⟨rfl, Json.str "Bud", _, rfl, rfl⟩

/-- C4 (amended): every repository operation except a plant rename
preserves case-insensitive uniqueness of the user's plant names —
`add_plant` rejects case-insensitive duplicates before appending, deletes
remove entries, and the task-level mutations leave names unchanged; but
`set_plant_field` with field `name` (the edit-plant flow) performs no
duplicate check and can break the invariant (see the counterexample). -/
theorem C4_amended (d : Document) (uid : String)
    (hU : namesUnique (docPlants d uid) = true) :
    (∀ name age now r d', addPlant d uid name age now r = some d' →
      namesUnique (docPlants d' uid) = true) ∧
    (∀ pi d', deletePlant d uid pi = some d' → namesUnique (docPlants d' uid) = true) ∧
    (∀ pi ti d', deleteTask d uid pi ti = some d' →
      namesUnique (docPlants d' uid) = true) ∧
    (∀ pi ti today d', toggleTask d uid pi ti today = some d' →
      namesUnique (docPlants d' uid) = true) ∧
    (∀ sc text old d' sc', editTaskValue sc d uid text = (EditResult.updated old d', sc') →
      namesUnique (docPlants d' uid) = true) ∧
    (∀ sc text old d' sc', sc.edit_field = some "age" →
      editPlantValue sc d uid text = (EditResult.updated old d', sc') →
      namesUnique (docPlants d' uid) = true) ∧
    (∀ sc text sc' d', addTaskInterval sc d uid text = (FlowOutcome.completed, sc', d') →
      namesUnique (docPlants d' uid) = true) := by
  refine ⟨?_, ?_, ?_, ?_, ?_, ?_, ?_⟩
  · intro name age now r d' h
    simp only [addPlant, docPlants_ensure] at h
    by_cases hany : (docPlants d uid).any (fun p => pyLower p.name == pyLower name) = true
    · rw [if_pos hany] at h
      exact absurd h (by simp)
    · rw [if_neg hany] at h
      have hd' := Option.some.inj h
      subst hd'
      rw [docPlants_docSet_self]
      exact namesUnique_append _ _ (Bool.not_eq_true _ ▸ hany) hU
  · intro pi d' h
    unfold deletePlant at h
    by_cases hlt : pi < (docPlants d uid).length
    · rw [if_pos hlt] at h
      have hd' := Option.some.inj h
      subst hd'
      rw [docPlants_docSet_self]
      exact namesUnique_pyDel _ pi hU
    · rw [if_neg hlt] at h
      exact absurd h (by simp)
  · intro pi ti d' h
    unfold deleteTask at h
    cases hp : (docPlants d uid)[pi]? with
    | none => simp only [hp] at h; simp at h
    | some plant =>
      simp only [hp] at h
      by_cases hlt : ti < plant.tasks.length
      · rw [if_pos hlt] at h
        have hd' := Option.some.inj h
        subst hd'
        rw [docPlants_docSet_self, namesUnique_set_tasks _ pi plant _ hp]
        exact hU
      · rw [if_neg hlt] at h
        exact absurd h (by simp)
  · intro pi ti today d' h
    unfold toggleTask at h
    cases hp : (docPlants d uid)[pi]? with
    | none => simp only [hp] at h; simp at h
    | some plant =>
      simp only [hp] at h
      cases hta : plant.tasks[ti]? with
      | none => simp only [hta] at h; simp at h
      | some task =>
        simp only [hta] at h
        have hd' := Option.some.inj h
        subst hd'
        rw [docPlants_docSet_self, namesUnique_set_tasks _ pi plant _ hp]
        exact hU
  · intro sc text old d' sc' h
    cases hpi : sc.edit_task_plant_idx with
    | none => simp [editTaskValue, hpi] at h
    | some pi =>
      cases hti : sc.edit_task_idx with
      | none => simp [editTaskValue, hpi, hti] at h
      | some ti =>
        cases hf : sc.edit_field with
        | none => simp [editTaskValue, hpi, hti, hf] at h
        | some field =>
          by_cases hfi : field = "interval_days"
          · subst hfi
            cases hparse : pyPosInt text with
            | none => simp [editTaskValue, hpi, hti, hf, hparse] at h
            | some n =>
              have hc : editTaskCommit d uid pi ti "interval_days" (Json.num n) =
                  (EditResult.updated old d', sc') := by
                rw [← h]
                simp [editTaskValue, hpi, hti, hf, hparse]
              obtain ⟨plant, task, hp, hta, hd'⟩ :=
                editTaskCommit_updated d uid pi ti "interval_days" (Json.num n) old d' sc' hc
              subst hd'
              rw [docPlants_docSet_self, namesUnique_set_tasks _ pi plant _ hp]
              exact hU
          · have hc : editTaskCommit d uid pi ti field (Json.str (pyStrip text)) =
                (EditResult.updated old d', sc') := by
              rw [← h]
              simp [editTaskValue, hpi, hti, hf, hfi]
            obtain ⟨plant, task, hp, hta, hd'⟩ :=
              editTaskCommit_updated d uid pi ti field (Json.str (pyStrip text)) old d' sc' hc
            subst hd'
            rw [docPlants_docSet_self, namesUnique_set_tasks _ pi plant _ hp]
            exact hU
  · intro sc text old d' sc' hage h
    cases hpi : sc.edit_plant_idx with
    | none => simp [editPlantValue, hpi] at h
    | some pi =>
      simp only [editPlantValue, hpi, hage] at h
      cases hp : (docPlants d uid)[pi]? with
      | none => simp only [hp] at h; simp at h
      | some plant =>
        simp only [hp,
          show plantGetField plant "age" = some plant.age from rfl,
          show plantSetField plant "age" (pyStrip text) =
            { plant with age := pyStrip text } from rfl] at h
        have h1 := congrArg Prod.fst h
        simp only [EditResult.updated.injEq] at h1
        rw [← h1.2]
        rw [docPlants_docSet_self, namesUnique_set_age _ pi plant _ hp]
        exact hU
  · intro sc text sc' d' h
    simp only [addTaskInterval] at h
    cases hparse : pyPosInt text with
    | none => simp only [hparse] at h; exact absurd (congrArg Prod.fst h) (by simp)
    | some n =>
      simp only [hparse] at h
      cases hp : (docPlants d uid)[sc.selected_plant_idx.getD 0]? with
      | none => simp only [hp] at h; exact absurd (congrArg Prod.fst h) (by simp)
      | some plant =>
        simp only [hp] at h
        cases hnt : sc.new_task with
        | none => simp only [hnt] at h; exact absurd (congrArg Prod.fst h) (by simp)
        | some draft =>
          simp only [hnt] at h
          have hd' := congrArg (fun p => p.2.2) h
          simp only at hd'
          rw [← hd']
          rw [docPlants_docSet_self,
            namesUnique_set_tasks _ (sc.selected_plant_idx.getD 0) plant _ hp]
          exact hU

/-- C4 witness: on a unique two-plant document, adding a fresh name keeps
the names unique, and deleting a plant keeps them unique. -/
theorem C4_witness :
    namesUnique (docPlants [("u", [⟨"Apple", "1", "t", []⟩,
      ⟨"Bud", "2", "t", []⟩])] "u") = true ∧
    (∀ d', addPlant [("u", [⟨"Apple", "1", "t", []⟩, ⟨"Bud", "2", "t", []⟩])] "u"
        "Cherry" "3" "t2" ApiResult.exn = some d' →
      namesUnique (docPlants d' "u") = true) ∧
    (∀ d', deletePlant [("u", [⟨"Apple", "1", "t", []⟩, ⟨"Bud", "2", "t", []⟩])] "u" 0 =
        some d' → namesUnique (docPlants d' "u") = true) :=
  ⟨rfl,
   fun d' h => (C4_amended [("u", [⟨"Apple", "1", "t", []⟩, ⟨"Bud", "2", "t", []⟩])] "u"
     rfl).1 "Cherry" "3" "t2" ApiResult.exn d' h,
   fun d' h => (C4_amended [("u", [⟨"Apple", "1", "t", []⟩, ⟨"Bud", "2", "t", []⟩])] "u"
     rfl).2.1 0 d' h⟩
